import Mathlib

/-!
Verification development for the spreadsheet-folder aggregation engine
(`src/services/ExcelFolderReader.ts`, `src/services/CalculationsService.ts`
and the alternate reader in `src/unnamed/part_004`).

Conventions of the shallow embedding:
* JS `Date` values are modelled as calendar triples `YMD` (year, month 1-12,
  day).  Millisecond arithmetic on midnight-to-midnight differences is
  modelled by exact day counts through `daysFromCivil` (Gregorian civil-day
  conversion, the standard algorithm also underlying the JS `Date` object).
  Time zones and intra-day times play no role in any claim and are omitted.
* JS numbers that carry point values are modelled as exact rationals `ℚ`.
* JS exceptions are modelled with `Except Unit`; `try`/`catch` becomes a
  `match` on the `Except` value.
* JS objects used as string-keyed maps (`monthlyData`, `weeklyData`,
  `employees`) are modelled as association lists in insertion order, which
  is the iteration order of string-keyed JS objects.
-/

namespace ElegBiz

/-- Calendar date triple as seen through `getFullYear` / `getMonth`+1 /
`getDate` of a JS `Date`. -/
structure YMD where
  year : Int
  month : Int
  day : Int
deriving DecidableEq, Repr

/-- Gregorian leap-year test. -/
def isLeapYear (y : Int) : Bool :=
  (y % 4 = 0 && y % 100 ≠ 0) || y % 400 = 0

/-- Number of days of month `m` of year `y` (Gregorian). -/
def daysInMonth (y m : Int) : Int :=
  if m = 2 then (if isLeapYear y then 29 else 28)
  else if m = 4 ∨ m = 6 ∨ m = 9 ∨ m = 11 then 30
  else 31

/-- Days since the epoch 1970-01-01 of the civil date `(y, m, d)`
(Howard Hinnant's `days_from_civil`; `m` must be in `[1,12]`).  This is the
day count that the JS `getTime()` millisecond clock advances by 86400000
per day. -/
def daysFromCivil (y m d : Int) : Int :=
  let y' := if m ≤ 2 then y - 1 else y
  let era := y' / 400
  let yoe := y' - era * 400
  let doy := (153 * (if 2 < m then m - 3 else m + 9) + 2) / 5 + d - 1
  let doe := yoe * 365 + yoe / 4 - yoe / 100 + doy
  era * 146097 + doe - 719468

/-- Day count of a `YMD`. -/
def toDays (d : YMD) : Int :=
  daysFromCivil d.year d.month d.day

/-- Civil date of a day count since 1970-01-01 (Hinnant's
`civil_from_days`). -/
def civilFromDays (z : Int) : YMD :=
  let z' := z + 719468
  let era := z' / 146097
  let doe := z' - era * 146097
  let yoe := (doe - doe / 1460 + doe / 36524 - doe / 146097) / 365
  let y := yoe + era * 400
  let doy := doe - (365 * yoe + yoe / 4 - yoe / 100)
  let mp := (5 * doy + 2) / 153
  let d := doy - (153 * mp + 2) / 5 + 1
  let m := if mp < 10 then mp + 3 else mp - 9
  if m ≤ 2 then ⟨y + 1, m, d⟩ else ⟨y, m, d⟩

/-- Date `n` days after `d`. -/
def addDays (d : YMD) (n : Int) : YMD :=
  civilFromDays (toDays d + n)

/-- Normalising date constructor, as JS `new Date(y, m0, d)` with 0-based
month `m0`: month overflow rolls the year, day overflow rolls the month.
In-range arguments pass through unchanged; out-of-range days are resolved
through the civil-day conversion. -/
def jsMkDate (y m0 d : Int) : YMD :=
  let ym := y * 12 + m0
  let y' := ym / 12
  let m' := ym % 12 + 1
  if 1 ≤ d ∧ d ≤ daysInMonth y' m' then ⟨y', m', d⟩
  else civilFromDays (daysFromCivil y' m' 1 + (d - 1))

/-- Portuguese month names, `ExcelFolderReader.getMonthFromDate` lines
347-350. -/
def monthNames : List String :=
  ["Janeiro", "Fevereiro", "Março", "Abril", "Maio", "Junho",
   "Julho", "Agosto", "Setembro", "Outubro", "Novembro", "Dezembro"]

/-- Name of calendar month `m` (1-based; out-of-range yields `""` where JS
would yield `undefined`). -/
def monthName (m : Int) : String :=
  monthNames.getD (m - 1).toNat ""

/-- `ExcelFolderReader.getMonthFromDate` (lines 342-363): the 26→25 company
cycle rule — a day ≥ 26 is labelled with the next calendar month's name
(December wrapping to January), a day ≤ 25 with the current month's name. -/
def getMonthFromDate (d : YMD) : String :=
  let day := d.day
  let month := d.month
  let targetMonth := if 26 ≤ day then (if 12 < month + 1 then 1 else month + 1) else month
  monthNames.getD (targetMonth - 1).toNat ""

/-- JS `String.prototype.padStart(2, '0')`. -/
def padStart2 (s : String) : String :=
  if s.length < 2 then "0" ++ s else s

/-- The alternate month classifier `getMonthFromDate` of
`src/unnamed/part_004` (lines 169-198): a day ≥ 26 keeps the current
calendar month, a day < 26 moves to the previous month (January wrapping to
December of the previous year); the label is formatted `MM/YYYY`. -/
def getMonthFromDateAlt (d : YMD) : String :=
  let tm := if 26 ≤ d.day then d.month else (if d.month = 1 then 12 else d.month - 1)
  let ty := if 26 ≤ d.day then d.year else (if d.month = 1 then d.year - 1 else d.year)
  padStart2 (toString tm) ++ "/" ++ toString ty

/-- Day count of the start (day 26) of the cycle that contains `d`, as
computed inline by `CalculationsService.getWeekFromDate` (lines 166-183):
day ≥ 26 starts the cycle in the current month, otherwise in the previous
month (year rolling back at January). -/
def cycleStartDays (d : YMD) : Int :=
  let cm := if 26 ≤ d.day then d.month else d.month - 1
  if cm < 1 then daysFromCivil (d.year - 1) 12 26
  else daysFromCivil d.year cm 26

/-- `CalculationsService.getWeekFromDate` (lines 160-189): floor of the day
difference to the cycle start divided by 7, plus 1, clamped to `[1, 5]`
through `Math.min(Math.max(week, 1), 5)`. -/
def getWeekFromDate (d : YMD) : Int :=
  let daysDiff := toDays d - cycleStartDays d
  min (max (daysDiff / 7 + 1) 1) 5

/-! JS cell values and the row parser. -/

/-- Value of a spreadsheet cell as seen by the row parser: `null` covers JS
`null`/`undefined`, `str`/`num` the primitive values, `date` a native date
cell. -/
inductive JSVal where
  | null : JSVal
  | str : String → JSVal
  | num : ℚ → JSVal
  | date : YMD → JSVal
deriving DecidableEq, Repr

/-- Raw row: a string-keyed field map in column order. -/
def Row := List (String × JSVal)

/-- Digit-run reader: consumes leading decimal digits, returning the value
read, how many digits were consumed, and the rest. -/
def readDigits : List Char → Nat → Nat → Nat × Nat × List Char
  | [], acc, n => (acc, n, [])
  | c :: cs, acc, n =>
      if c.isDigit then readDigits cs (acc * 10 + (c.toNat - 48)) (n + 1)
      else (acc, n, c :: cs)

/-- Model of the JS builtin `parseInt` in base 10 on a character list: skip
leading whitespace, optional sign, then the longest run of decimal digits;
`none` models `NaN`.  (The automatic hexadecimal mode for a leading `0x` is
not modelled; no claim involves it.) -/
def parseIntChars (cs : List Char) : Option Int :=
  let l := cs.dropWhile (fun c => c.isWhitespace)
  let sl : Int × List Char :=
    match l with
    | '-' :: t => (-1, t)
    | '+' :: t => (1, t)
    | _ => (1, l)
  let r := readDigits sl.2 0 0
  if r.2.1 = 0 then none else some (sl.1 * (r.1 : Int))

/-- JS `String.prototype.split('/')` on a character list: maximal
slash-free runs, keeping empty runs between, before and after
delimiters. -/
def splitSlash : List Char → List (List Char)
  | [] => [[]]
  | c :: t =>
      if c = '/' then [] :: splitSlash t
      else
        match splitSlash t with
        | h :: r => (c :: h) :: r
        | [] => [[c]]

/-- Model of the JS builtin `parseFloat`: skip leading whitespace, optional
sign, longest prefix of the form `digits [. digits] [e|E [sign] digits]`;
`none` models `NaN`.  (The literals `Infinity`/`NaN` are not modelled; no
claim involves them.) -/
def parseFloatStr (s : String) : Option ℚ :=
  let l := s.toList.dropWhile (fun c => c.isWhitespace)
  let sl : ℚ × List Char :=
    match l with
    | '-' :: t => (-1, t)
    | '+' :: t => (1, t)
    | _ => (1, l)
  let ri := readDigits sl.2 0 0
  let rf : Nat × Nat × List Char :=
    match ri.2.2 with
    | '.' :: t => readDigits t 0 0
    | _ => (0, 0, ri.2.2)
  if ri.2.1 = 0 ∧ rf.2.1 = 0 then none
  else
    let mant : ℚ := (ri.1 : ℚ) + (rf.1 : ℚ) / ((10 : ℚ) ^ rf.2.1)
    let expo : Int :=
      match rf.2.2 with
      | 'e' :: t =>
          (match t with
           | '-' :: u => (fun r => if r.2.1 = 0 then 0 else -(r.1 : Int)) (readDigits u 0 0)
           | '+' :: u => (fun r => if r.2.1 = 0 then 0 else (r.1 : Int)) (readDigits u 0 0)
           | _ => (fun r => if r.2.1 = 0 then 0 else (r.1 : Int)) (readDigits t 0 0))
      | 'E' :: t =>
          (match t with
           | '-' :: u => (fun r => if r.2.1 = 0 then 0 else -(r.1 : Int)) (readDigits u 0 0)
           | '+' :: u => (fun r => if r.2.1 = 0 then 0 else (r.1 : Int)) (readDigits u 0 0)
           | _ => (fun r => if r.2.1 = 0 then 0 else (r.1 : Int)) (readDigits t 0 0))
      | _ => 0
    some (sl.1 * mant * (10 : ℚ) ^ expo)

/-- JS `parseFloat` applied to the (possibly missing) result of
`findColumnValue`: a number passes through (JS stringifies and reparses it,
the identity on finite numbers), a string is parsed, anything else —
including a missing value, where JS parses the string `"null"` — is `NaN`,
modelled as `none`. -/
def parseFloatJS : Option JSVal → Option ℚ
  | some (.num q) => some q
  | some (.str s) => parseFloatStr s
  | _ => none

/-- JS truthiness test (`!value`) on a possibly-missing cell value: missing,
`null`, the empty string and the number 0 are falsy. -/
def jsFalsy : Option JSVal → Bool
  | none => true
  | some .null => true
  | some (.str s) => s = ""
  | some (.num q) => q = 0
  | some (.date _) => false

/-- JS `String(value || '')`: falsy values render as `""`.  The exact JS
string rendering of numbers and native dates is immaterial to every claim
(the fields fed through it are free-text tags); a simple rendering is
used. -/
def jsToString : Option JSVal → String
  | some (.str s) => s
  | some (.num q) => if q = 0 then "" else "number"
  | some (.date _) => "date"
  | _ => ""

/-- Lookup of a field in a row: JS object access returns the value of the
first matching key. -/
def rowGet (row : Row) (name : String) : Option JSVal :=
  (row.find? (fun p => p.1 = name)).map (fun p => p.2)

/-- `ExcelFolderReader.findColumnValue` (lines 279-286): try the alias
names in order and return the first present value that is neither
`undefined`, `null` nor `''`. -/
def findColumnValue (row : Row) : List String → Option JSVal
  | [] => none
  | n :: t =>
      match rowGet row n with
      | some v => if v = .null ∨ v = .str "" then findColumnValue row t else some v
      | none => findColumnValue row t

/-- Date-column aliases of `parseExcelRow` line 235. -/
def dateAliases : List String := ["Data", "data", "DATE", "Date"]

/-- Points-column aliases of `parseExcelRow` line 236. -/
def pointsAliases : List String := ["Pontos", "pontos", "PONTOS", "Points"]

/-- Refinery-column aliases of `parseExcelRow` line 237. -/
def refineryAliases : List String := ["Refinaria", "refinaria", "REFINARIA", "Refinery"]

/-- Observations-column aliases of `parseExcelRow` line 238. -/
def observationsAliases : List String :=
  ["Observações", "observacoes", "OBSERVACOES", "Observations"]

/-- Epoch of spreadsheet serial day numbers: December 30, 1899 — the
`new Date(1899, 11, 30)` of `parseExcelDate` line 327, which compensates
for the spreadsheet format's fictitious 1900 leap day. -/
def excelEpoch : YMD := ⟨1899, 12, 30⟩

/-- Two-digit-year adjustment of `parseExcelDate` lines 306-309: a year
below 100 maps below 50 to the 2000s and otherwise to the 1900s. -/
def adjustYear (y : Int) : Int :=
  if y < 100 then (if y < 50 then y + 2000 else y + 1900) else y

/-- The `DD/MM/YYYY` branch of `parseExcelDate` (lines 299-315): a string
containing `/` that splits into exactly three integer-parsed parts yields
`new Date(adjustYear year, month-1, day)`; any failure falls through
(`none`). -/
def slashParse (s : String) : Option YMD :=
  let l := s.toList
  if l.contains '/' then
    match splitSlash l with
    | [a, b, c] =>
        match parseIntChars a, parseIntChars b, parseIntChars c with
        | some day, some m, some y => some (jsMkDate (adjustYear y) (m - 1) day)
        | _, _, _ => none
    | _ => none
  else none

/-- `ExcelFolderReader.parseExcelDate` (lines 291-337).  A native date
value passes through; a slash-delimited string is read as day/month/year;
other strings go to the generic JS date recogniser, abstracted here as the
parameter `g` (`new Date(string)`, with `none` for an invalid date); a
number `q` is the spreadsheet serial: the calendar day
`floor(q)` days after `excelEpoch` (the instant is the epoch plus `q` days
of milliseconds; its calendar day is the epoch day plus `floor(q)`).
Anything else is `null`. -/
def parseExcelDate (g : String → Option YMD) : JSVal → Option YMD
  | .date d => some d
  | .str s =>
      match slashParse s with
      | some d => some d
      | none => g s
  | .num q => some (addDays excelEpoch ⌊q⌋)
  | .null => none

/-- Canonical point record, interface `ExcelEmployeeRecord` (lines 4-11);
`date` keeps the parsed calendar date (the source stores its ISO
rendering). -/
structure ExcelEmployeeRecord where
  date : YMD
  refinery : String
  points : ℚ
  observations : String
  month : String
  week : Int
deriving DecidableEq, Repr

/-- `ExcelFolderReader.parseExcelRow` (lines 232-274).  Skips (returns
`none`) on a falsy date cell, on points that parse to `NaN` (taken as 0 by
`|| 0`) or to a non-positive number, and on an unparseable date; otherwise
builds the record, classifying the date with `getMonthFromDate` and
`getWeekFromDate`.  (The `employeeName`/`rowIndex` arguments of the source
only feed log messages and are dropped.) -/
def parseExcelRow (g : String → Option YMD) (row : Row) : Option ExcelEmployeeRecord :=
  let dateValue := findColumnValue row dateAliases
  let pointsValue := findColumnValue row pointsAliases
  let refineryValue := findColumnValue row refineryAliases
  let observationsValue := findColumnValue row observationsAliases
  if jsFalsy dateValue then none
  else
    let points := (parseFloatJS pointsValue).getD 0
    if points ≤ 0 then none
    else
      match parseExcelDate g (dateValue.getD .null) with
      | none => none
      | some parsedDate =>
          some { date := parsedDate
                 refinery := (jsToString refineryValue).trim
                 points := points
                 observations := (jsToString observationsValue).trim
                 month := getMonthFromDate parsedDate
                 week := getWeekFromDate parsedDate }

/-! Aggregates, merge, pipeline, cache and statistics. -/

/-- Accumulator bucket `{ points, records }` of `monthlyData` /
`weeklyData`. -/
structure Bucket where
  points : ℚ
  records : Nat
deriving DecidableEq, Repr

/-- Per-entity aggregate, interface `ExcelEmployeeData` (lines 13-20);
bucket maps are association lists in key-insertion order. -/
structure ExcelEmployeeData where
  name : String
  totalPoints : ℚ
  totalRecords : Nat
  records : List ExcelEmployeeRecord
  monthlyData : List (String × Bucket)
  weeklyData : List (String × Bucket)
deriving DecidableEq, Repr

/-- Add `b` into the bucket keyed `k`: the `if (!m[k]) m[k] = {0,0};
m[k].points += b.points; m[k].records += b.records` idiom — an existing key
keeps its position, a fresh key is appended (JS insertion order). -/
def addToBucket : List (String × Bucket) → String → Bucket → List (String × Bucket)
  | [], k, b => [(k, b)]
  | (k', v) :: t, k, b =>
      if k' = k then (k', ⟨v.points + b.points, v.records + b.records⟩) :: t
      else (k', v) :: addToBucket t k b

/-- One iteration of the row loop of `processExcelFile` (lines 192-218) for
a successfully parsed record: push the record, bump the totals and both
buckets (the weekly key is rendered `Semana N`). -/
def addRecord (e : ExcelEmployeeData) (r : ExcelEmployeeRecord) : ExcelEmployeeData :=
  { e with
    totalPoints := e.totalPoints + r.points
    totalRecords := e.totalRecords + 1
    records := e.records ++ [r]
    monthlyData := addToBucket e.monthlyData r.month ⟨r.points, 1⟩
    weeklyData := addToBucket e.weeklyData ("Semana " ++ toString r.week) ⟨r.points, 1⟩ }

/-- Row-processing core of `processExcelFile` (lines 182-218): fold the
parsed rows of one file into a fresh per-entity aggregate (rows that
`parseExcelRow` skips leave the aggregate unchanged). -/
def processRows (g : String → Option YMD) (name : String) (rows : List Row) :
    ExcelEmployeeData :=
  rows.foldl
    (fun e row =>
      match parseExcelRow g row with
      | some r => addRecord e r
      | none => e)
    ⟨name, 0, 0, [], [], []⟩

/-- Bucket-map merge of `mergeEmployeeData` (lines 392-408): every entry of
the incoming map is added into the existing map in iteration order. -/
def mergeBuckets (e a : List (String × Bucket)) : List (String × Bucket) :=
  a.foldl (fun m kb => addToBucket m kb.1 kb.2) e

/-- Merge of one file-level aggregate into an existing entity entry, the
`else` branch of `mergeEmployeeData` (lines 385-409): totals add, records
append, and each bucket of the incoming aggregate is added point-wise,
creating a zero bucket for a first-seen label. -/
def mergeInto (e incoming : ExcelEmployeeData) : ExcelEmployeeData :=
  { e with
    totalPoints := e.totalPoints + incoming.totalPoints
    totalRecords := e.totalRecords + incoming.totalRecords
    records := e.records ++ incoming.records
    monthlyData := mergeBuckets e.monthlyData incoming.monthlyData
    weeklyData := mergeBuckets e.weeklyData incoming.weeklyData }

/-- `ExcelFolderReader.mergeEmployeeData` (lines 380-410) on the entity
map: a new name is inserted verbatim (appended, JS insertion order), an
existing one is merged with `mergeInto`. -/
def mergeEmployeeData : List (String × ExcelEmployeeData) → ExcelEmployeeData →
    List (String × ExcelEmployeeData)
  | [], d => [(d.name, d)]
  | (n, e) :: t, d =>
      if n = d.name then (n, mergeInto e d) :: t
      else (n, e) :: mergeEmployeeData t d

/-- Merge a sequence of files — each given as entity name plus raw rows —
into an (initially empty) entity map, in file-processing order. -/
def mergeFiles (g : String → Option YMD) (files : List (String × List Row)) :
    List (String × ExcelEmployeeData) :=
  files.foldl (fun acc p => mergeEmployeeData acc (processRows g p.1 p.2)) []

/-- Lookup of the bucket stored under label `k`, `⟨0, 0⟩` when the label
is absent. -/
def bucketGet : List (String × Bucket) → String → Bucket
  | [], _ => ⟨0, 0⟩
  | (k', v) :: t, k => if k' = k then v else bucketGet t k

/-- Component-wise bucket addition. -/
def bAdd (x y : Bucket) : Bucket := ⟨x.points + y.points, x.records + y.records⟩

/-- Sum of the points stored in a bucket map. -/
def sumPoints (m : List (String × Bucket)) : ℚ := (m.map (fun p => p.2.points)).sum

/-- Sum of the points of a record list. -/
def recPoints (rs : List ExcelEmployeeRecord) : ℚ := (rs.map (fun r => r.points)).sum

/-- The entity-aggregate invariant of the specification: `totalPoints`
equals the sum of the record points, and the monthly and weekly bucket
maps each distribute exactly that total. -/
def EInv (e : ExcelEmployeeData) : Prop :=
  e.totalPoints = recPoints e.records ∧
  sumPoints e.monthlyData = e.totalPoints ∧
  sumPoints e.weeklyData = e.totalPoints

/-- Folder-level statistics block (interface `ExcelFolderData.statistics`,
lines 24-30). -/
structure Statistics where
  totalFiles : Nat
  totalEmployees : Nat
  totalRecords : Nat
  totalPoints : ℚ
  totalProfit : ℚ
deriving DecidableEq, Repr

/-- Top-level folder aggregate, interface `ExcelFolderData` (lines 22-32);
`lastProcessed` keeps the capture time as a number. -/
structure ExcelFolderData where
  employees : List (String × ExcelEmployeeData)
  statistics : Statistics
  lastProcessed : Int
deriving DecidableEq, Repr

/-- `POINT_VALUE` constant, R$ 3.25 per point (line 39). -/
def POINT_VALUE : ℚ := 13 / 4

/-- `ExcelFolderReader.calculateFinalStatistics` (lines 415-424): entity
count, record/point totals summed over the entity map, and the derived
profit. -/
def calculateFinalStatistics (fd : ExcelFolderData) : ExcelFolderData :=
  let totalRecords :=
    fd.employees.foldl (fun a p => a + p.2.totalRecords) fd.statistics.totalRecords
  let totalPoints :=
    fd.employees.foldl (fun a p => a + p.2.totalPoints) fd.statistics.totalPoints
  { fd with
    statistics :=
      { fd.statistics with
        totalEmployees := fd.employees.length
        totalRecords := totalRecords
        totalPoints := totalPoints
        totalProfit := totalPoints * POINT_VALUE } }

/-- Known period folders (line 71). -/
def knownFolders : List String := ["mes 4", "mes 5", "mes 6", "mes 7"]

/-- `ExcelFolderReader.getFilesInFolder` (lines 117-142): the static file
catalog, `[]` for an unknown folder. -/
def getFilesInFolder (folder : String) : List String :=
  if folder = "mes 4" then ["Matheus Abril.xlsx", "Maurício Abril.xlsx", "Rodrigo Abril.xlsx"]
  else if folder = "mes 5" then ["Matheus Maio.xlsx", "Maurício Maio.xlsx", "Wesley Maio.xlsx"]
  else if folder = "mes 6" then ["Matheus Junho.xlsx", "Maurício Junho.xlsx", "Wesley Junho.xlsx"]
  else if folder = "mes 7" then ["Matheus Julho.xlsx", "Maurício Julho.xlsx", "Wesley Julho.xlsx"]
  else []

/-- Strip a trailing `.xlsx`/`.xls` extension (the case-insensitive regex
of line 370; the catalog only contains lowercase extensions). -/
def stripExt (s : String) : String :=
  if s.endsWith ".xlsx" then s.dropRight 5
  else if s.endsWith ".xls" then s.dropRight 4
  else s

/-- `ExcelFolderReader.extractEmployeeName` (lines 368-375): drop the
extension and keep the text before the first space. -/
def extractEmployeeName (fileName : String) : String :=
  ((stripExt fileName).splitOn " ").headD ""

/-- File-retrieval collaborator: `head path` is the `fetch(..., HEAD)`
success of `fileExists` (lines 147-154; a thrown fetch is caught there and
reported as `false`), and `body path` is the combined outcome of the `GET`
fetch plus workbook decode of `processExcelFile` (lines 167-178) — `none`
when that file read or decode throws (the per-file `catch` of lines 92-94
then skips the file). -/
structure PipeEnv where
  head : String → Bool
  body : String → Option (List Row)

/-- One iteration of the file loop of `readRegistrosFolder` (lines 79-95)
over the accumulated folder aggregate and fetch count: one `HEAD` fetch; on
success one `GET` fetch, and — unless that read throws, in which case the
per-file `catch` skips the file — the file's aggregate is merged in and
`totalFiles` is bumped. -/
def catalogStep (g : String → Option YMD) (env : PipeEnv) (acc : ExcelFolderData × Nat)
    (p : String × String) : ExcelFolderData × Nat :=
  let path := "registros monitorar/" ++ p.1 ++ "/" ++ p.2
  let n := acc.2 + 1
  if env.head path then
    match env.body path with
    | some rows =>
        let ed := processRows g (extractEmployeeName p.2) rows
        ({ acc.1 with
           employees := mergeEmployeeData acc.1.employees ed
           statistics :=
             { acc.1.statistics with totalFiles := acc.1.statistics.totalFiles + 1 } },
         n + 1)
    | none => (acc.1, n + 1)
  else (acc.1, n)

/-- Full-catalog ingestion run, the loop body of `readRegistrosFolder`
(lines 57-99) followed by `calculateFinalStatistics`.  Returns the folder
aggregate and the number of `fetch` calls performed (one `HEAD` per
catalog file, plus one `GET` per file whose existence check passed). -/
def processCatalog (g : String → Option YMD) (env : PipeEnv) (now : Int) :
    ExcelFolderData × Nat :=
  let files := knownFolders.flatMap (fun folder => (getFilesInFolder folder).map (fun f => (folder, f)))
  let r := files.foldl (catalogStep g env) (⟨[], ⟨0, 0, 0, 0, 0⟩, now⟩, 0)
  (calculateFinalStatistics r.1, r.2)

/-- Cache cell: the static fields `cachedData` / `lastCacheTime` (lines
40-41). -/
structure CacheState where
  cachedData : Option ExcelFolderData
  lastCacheTime : Int
deriving DecidableEq, Repr

/-- `CACHE_DURATION`, two minutes in milliseconds (line 42). -/
def CACHE_DURATION : Int := 2 * 60 * 1000

/-- `ExcelFolderReader.readRegistrosFolder` (lines 47-112) over the
concrete pipeline: a cached aggregate younger than the TTL is returned
unchanged with zero fetches; otherwise the full ingestion runs and
replaces the cache.  (The concrete pipeline cannot throw — every per-file
error is swallowed by the inner `catch` — so the outer `catch`/rethrow of
lines 108-111 is unreachable here; `readFolderE` below models that wrapper
for an arbitrary body outcome.) -/
def readRegistrosFolder (g : String → Option YMD) (env : PipeEnv) (st : CacheState)
    (now : Int) : ExcelFolderData × CacheState × Nat :=
  match st.cachedData with
  | some d =>
      if now - st.lastCacheTime < CACHE_DURATION then (d, st, 0)
      else
        let r := processCatalog g env now
        (r.1, ⟨some r.1, now⟩, r.2)
  | none =>
      let r := processCatalog g env now
      (r.1, ⟨some r.1, now⟩, r.2)

/-- `ExcelFolderReader.clearCache` (lines 562-566). -/
def clearCache (_st : CacheState) : CacheState := ⟨none, 0⟩

/-- The `try`/`catch` wrapper of `readRegistrosFolder` (lines 69-111) with
the ingestion body abstracted as an `Except` outcome `run`: on a cache hit
the body never runs; on a miss a successful body replaces the cache
wholesale (lines 102-103), while a thrown body is rethrown (line 110)
without touching the cache. -/
def readFolderE (st : CacheState) (now : Int) (run : Except Unit ExcelFolderData) :
    Except Unit ExcelFolderData × CacheState :=
  match st.cachedData with
  | some d =>
      if now - st.lastCacheTime < CACHE_DURATION then (.ok d, st)
      else
        match run with
        | .ok r => (.ok r, ⟨some r, now⟩)
        | .error e => (.error e, st)
  | none =>
      match run with
      | .ok r => (.ok r, ⟨some r, now⟩)
      | .error e => (.error e, st)

/-- Summary statistics returned by `getGeneralStats` (lines 526-532). -/
structure GeneralStats where
  bestPerformer : String
  bestPoints : ℚ
  avgPerformerTeam : Int
  totalGoal : ℚ
  progressPercentage : ℚ
deriving DecidableEq, Repr

/-- JS `Math.round`: the nearest integer, halves toward positive
infinity. -/
def jsRound (q : ℚ) : Int := ⌊q + 1 / 2⌋

/-- One iteration of the `getGeneralStats` pass (lines 506-518) over the
accumulator (best performer, best points, sum for average, count for
average): the best pair updates only on strict improvement — so ties keep
the first entity seen — and the average accumulators skip the entity named
`Rodrigo`. -/
def statsStep (acc : String × ℚ × ℚ × Nat) (p : String × ExcelEmployeeData) :
    String × ℚ × ℚ × Nat :=
  let best := if acc.2.1 < p.2.totalPoints then (p.2.name, p.2.totalPoints)
              else (acc.1, acc.2.1)
  let avg := if p.2.name ≠ "Rodrigo" then (acc.2.2.1 + p.2.totalPoints, acc.2.2.2 + 1)
             else (acc.2.2.1, acc.2.2.2)
  (best.1, best.2, avg.1, avg.2)

/-- The single pass of `getGeneralStats` over the entity map (lines
506-518), starting from an empty best performer with 0 best points. -/
def statsFold (es : List (String × ExcelEmployeeData)) : String × ℚ × ℚ × Nat :=
  es.foldl statsStep ("", 0, 0, 0)

/-- The best-performer component of the pass in isolation. -/
def bestFold (es : List (String × ExcelEmployeeData)) (acc : String × ℚ) : String × ℚ :=
  es.foldl
    (fun a p => if a.2 < p.2.totalPoints then (p.2.name, p.2.totalPoints) else a) acc

/-- The team-average component of the pass in isolation. -/
def avgFold (es : List (String × ExcelEmployeeData)) (acc : ℚ × Nat) : ℚ × Nat :=
  es.foldl
    (fun a p => if p.2.name ≠ "Rodrigo" then (a.1 + p.2.totalPoints, a.2 + 1) else a) acc

/-- Maximum of the entity totals and the seed `b`. -/
def maxFrom (b : ℚ) (es : List (String × ExcelEmployeeData)) : ℚ :=
  es.foldl (fun a p => max a p.2.totalPoints) b

/-- Name of the first entity in iteration order whose total equals `q`. -/
def firstWithTotal (es : List (String × ExcelEmployeeData)) (q : ℚ) : Option String :=
  (es.find? (fun p => p.2.totalPoints = q)).map (fun p => p.2.name)

/-- Number of entities that count toward the team average (everyone but
`Rodrigo`). -/
def countTeam (es : List (String × ExcelEmployeeData)) : Nat :=
  (es.filter (fun p => p.2.name ≠ "Rodrigo")).length

/-- Summed totals of the entities that count toward the team average. -/
def sumTeam (es : List (String × ExcelEmployeeData)) : ℚ :=
  ((es.filter (fun p => p.2.name ≠ "Rodrigo")).map (fun p => p.2.totalPoints)).sum

/-- Fixed team monthly goal (line 523). -/
def totalGoal : ℚ := 29500

/-- Statistics computation of `getGeneralStats` (lines 496-532) from a
folder aggregate: best performer/points, team average rounded to the
nearest integer (`Math.round`, line 521), the goal displayed in thousands
to one decimal, and the goal progress percentage to one decimal. -/
def computeStats (fd : ExcelFolderData) : GeneralStats :=
  let r := statsFold fd.employees
  { bestPerformer := r.1
    bestPoints := r.2.1
    avgPerformerTeam := if 0 < r.2.2.2 then jsRound (r.2.2.1 / (r.2.2.2 : ℚ)) else 0
    totalGoal := (jsRound (totalGoal / 1000 * 10) : ℚ) / 10
    progressPercentage := (jsRound (fd.statistics.totalPoints / totalGoal * 100 * 10) : ℚ) / 10 }

/-- Fallback object of the `catch` branch of `getGeneralStats` (lines
536-542). -/
def defaultStats : GeneralStats :=
  { bestPerformer := ""
    bestPoints := 0
    avgPerformerTeam := 0
    totalGoal := 59 / 2
    progressPercentage := 0 }

/-- `ExcelFolderReader.getGeneralStats` (lines 496-544) over the abstract
read: its own `try`/`catch` converts any failure of the read into a
normal return of `defaultStats` — the error is swallowed, not rethrown. -/
def getGeneralStatsE (st : CacheState) (now : Int) (run : Except Unit ExcelFolderData) :
    Except Unit GeneralStats × CacheState :=
  match readFolderE st now run with
  | (.ok d, st') => (.ok (computeStats d), st')
  | (.error _, st') => (.ok defaultStats, st')

/-- `ExcelFolderReader.getEmployeeData` (lines 549-557) over the abstract
read: map lookup on success, and a normal `null` return — not a rethrow —
when the read fails. -/
def getEmployeeDataE (name : String) (st : CacheState) (now : Int)
    (run : Except Unit ExcelFolderData) :
    Except Unit (Option ExcelEmployeeData) × CacheState :=
  match readFolderE st now run with
  | (.ok d, st') => (.ok ((d.employees.find? (fun p => p.1 = name)).map (fun p => p.2)), st')
  | (.error _, st') => (.ok none, st')

/-- Generic date recogniser that accepts nothing, used to instantiate the
`g` parameter in concrete witnesses. -/
def gNone : String → Option YMD := fun _ => none

/-- Empty folder aggregate, used in concrete witnesses. -/
def fdEmpty : ExcelFolderData := ⟨[], ⟨0, 0, 0, 0, 0⟩, 0⟩

/-- Environment in which every existence check fails, used in concrete
witnesses. -/
def envNone : PipeEnv := ⟨fun _ => false, fun _ => none⟩

/-- Demo rows mirroring the spec's `Ana` scenario: 2024-04-20 with 10
points and 2024-04-27 with 5 points. -/
def demoRows : List Row :=
  [[("Data", .date ⟨2024, 4, 20⟩), ("Pontos", .num 10)],
   [("Data", .date ⟨2024, 4, 27⟩), ("Pontos", .num 5)]]

/-- Demo record used by concrete witness aggregates. -/
def demoRec : ExcelEmployeeRecord :=
  ⟨⟨2024, 4, 20⟩, "", 10, "", "Abril", 4⟩

/-- Demo file-level aggregate with one record and one bucket per map. -/
def demoA : ExcelEmployeeData :=
  ⟨"Ana", 10, 1, [demoRec], [("Abril", ⟨10, 1⟩)], [("Semana 4", ⟨10, 1⟩)]⟩

/-- Demo entity map with totals 100 and 101, whose mean 100.5 is not an
integer. -/
def demoStatsEmployees : List (String × ExcelEmployeeData) :=
  [("A", ⟨"A", 100, 1, [], [], []⟩), ("B", ⟨"B", 101, 1, [], [], []⟩)]

/-- Demo folder aggregate around `demoStatsEmployees`. -/
def demoFolder : ExcelFolderData := ⟨demoStatsEmployees, ⟨0, 0, 0, 0, 0⟩, 0⟩

/-! Theorems. -/

/-- C1: for every valid date, the record pipeline's month classifier
(`ExcelFolderReader.getMonthFromDate`) yields the next calendar month's
name when the day is in `[26, 31]` — December wrapping to January — and
the current calendar month's name when the day is in `[1, 25]`. -/
theorem c1_cycle_month_label (d : YMD)
    (hm1 : 1 ≤ d.month) (hm2 : d.month ≤ 12) (hd1 : 1 ≤ d.day) (hd2 : d.day ≤ 31) :
    (26 ≤ d.day → getMonthFromDate d = monthName (if d.month = 12 then 1 else d.month + 1)) ∧
    (d.day ≤ 25 → getMonthFromDate d = monthName d.month) := by
  obtain ⟨y, m, dd⟩ := d
  dsimp only at hm1 hm2 hd1 hd2 ⊢
  constructor
  · intro h26
    simp only [getMonthFromDate, monthName]
    rw [if_pos h26]
    interval_cases m <;> decide
  · intro h25
    simp only [getMonthFromDate, monthName]
    rw [if_neg (show ¬ 26 ≤ dd by omega)]

/-- Witness for C1 at the December boundary and at an interior day. -/
theorem c1_cycle_month_label_witness :
    getMonthFromDate ⟨2024, 12, 26⟩ = "Janeiro" ∧ getMonthFromDate ⟨2024, 4, 25⟩ = "Abril" :=
  ⟨((c1_cycle_month_label ⟨2024, 12, 26⟩ (by decide) (by decide) (by decide) (by decide)).1
      (by decide)).trans (by decide),
   ((c1_cycle_month_label ⟨2024, 4, 25⟩ (by decide) (by decide) (by decide) (by decide)).2
      (by decide)).trans (by decide)⟩

/-- C2: `getWeekFromDate` is exactly the clamped week formula
`min (max (floor((d − cycleStart)/7) + 1) 1) 5`; its value always lies in
`[1, 5]`; and it is monotonically non-decreasing as the date advances
within one cycle (same cycle start). -/
theorem c2_week_of_cycle (d d1 d2 : YMD) :
    getWeekFromDate d = min (max ((toDays d - cycleStartDays d) / 7 + 1) 1) 5 ∧
    (1 ≤ getWeekFromDate d ∧ getWeekFromDate d ≤ 5) ∧
    (cycleStartDays d1 = cycleStartDays d2 → toDays d1 ≤ toDays d2 →
      getWeekFromDate d1 ≤ getWeekFromDate d2) := by
  refine ⟨rfl, ⟨?_, ?_⟩, ?_⟩
  · simp only [getWeekFromDate]; omega
  · simp only [getWeekFromDate]; omega
  · intro hc hd
    simp only [getWeekFromDate]
    rw [hc]
    omega

/-- Witness for C2 inside the cycle starting 2024-04-26. -/
theorem c2_week_of_cycle_witness :
    (1 ≤ getWeekFromDate ⟨2024, 5, 10⟩ ∧ getWeekFromDate ⟨2024, 5, 10⟩ ≤ 5) ∧
    getWeekFromDate ⟨2024, 4, 26⟩ ≤ getWeekFromDate ⟨2024, 5, 10⟩ :=
  ⟨(c2_week_of_cycle ⟨2024, 5, 10⟩ ⟨2024, 5, 10⟩ ⟨2024, 5, 10⟩).2.1,
   (c2_week_of_cycle ⟨2024, 5, 10⟩ ⟨2024, 4, 26⟩ ⟨2024, 5, 10⟩).2.2 (by decide) (by decide)⟩

/-- C10: at a cycle-boundary date (day ≥ 26) the two month classifiers
disagree — the pipeline's `getMonthFromDate` returns the next calendar
month's name while the alternate classifier of `src/unnamed/part_004`
labels the date with the current calendar month. -/
theorem c10_classifier_divergence :
    ∃ d : YMD, 1 ≤ d.month ∧ d.month ≤ 12 ∧ 26 ≤ d.day ∧ d.day ≤ 31 ∧
      getMonthFromDate d = monthName (if d.month = 12 then 1 else d.month + 1) ∧
      getMonthFromDateAlt d = padStart2 (toString d.month) ++ "/" ++ toString d.year ∧
      getMonthFromDate d ≠ monthName d.month :=
  ⟨⟨2024, 4, 26⟩, by decide⟩

/-- C5: the row parser skips (returns `none`) a row whose date cell is
absent, whose points cell is absent or non-numeric (JS `NaN`, coerced to 0
by `|| 0`) or parses to a value ≤ 0, or whose date value fails to parse;
consequently every record it does return has strictly positive points. -/
theorem c5_row_skip_rules (g : String → Option YMD) (row : Row) :
    (findColumnValue row dateAliases = none → parseExcelRow g row = none) ∧
    (parseFloatJS (findColumnValue row pointsAliases) = none → parseExcelRow g row = none) ∧
    (∀ q, parseFloatJS (findColumnValue row pointsAliases) = some q → q ≤ 0 →
      parseExcelRow g row = none) ∧
    (parseExcelDate g ((findColumnValue row dateAliases).getD .null) = none →
      parseExcelRow g row = none) ∧
    (∀ r, parseExcelRow g row = some r → 0 < r.points) := by
  refine ⟨?_, ?_, ?_, ?_, ?_⟩
  · intro h
    simp only [parseExcelRow, h, jsFalsy, if_true]
  · intro h
    simp only [parseExcelRow, h, Option.getD_none]
    by_cases h1 : jsFalsy (findColumnValue row dateAliases) = true
    · rw [if_pos h1]
    · rw [if_neg h1, if_pos le_rfl]
  · intro q hq hle
    simp only [parseExcelRow, hq, Option.getD_some]
    by_cases h1 : jsFalsy (findColumnValue row dateAliases) = true
    · rw [if_pos h1]
    · rw [if_neg h1, if_pos hle]
  · intro h
    simp only [parseExcelRow, h]
    by_cases h1 : jsFalsy (findColumnValue row dateAliases) = true
    · rw [if_pos h1]
    · rw [if_neg h1]
      by_cases h2 : (parseFloatJS (findColumnValue row pointsAliases)).getD 0 ≤ 0
      · rw [if_pos h2]
      · rw [if_neg h2]
  · intro r hr
    simp only [parseExcelRow] at hr
    by_cases h1 : jsFalsy (findColumnValue row dateAliases) = true
    · rw [if_pos h1] at hr
      cases hr
    · rw [if_neg h1] at hr
      by_cases h2 : (parseFloatJS (findColumnValue row pointsAliases)).getD 0 ≤ 0
      · rw [if_pos h2] at hr
        cases hr
      · rw [if_neg h2] at hr
        cases hm : parseExcelDate g ((findColumnValue row dateAliases).getD .null) with
        | none => rw [hm] at hr; cases hr
        | some pd =>
            rw [hm] at hr
            obtain rfl := Option.some.inj hr
            exact lt_of_not_ge h2

/-- Witness for C5: a row with points −5 is skipped. -/
theorem c5_row_skip_rules_witness :
    parseExcelRow gNone [("Data", .date ⟨2024, 4, 10⟩), ("Pontos", .num (-5))] = none :=
  (c5_row_skip_rules gNone [("Data", .date ⟨2024, 4, 10⟩), ("Pontos", .num (-5))]).2.2.1
    (-5) (by decide) (by decide)

/-- C6: `parseExcelDate` passes a native date value through; reads a
slash-delimited three-part string as day/month/year (two-digit years
adjusted by `adjustYear`), yielding exactly that calendar date when the
parts are in range; hands every other string to the generic JS date
recogniser; and maps a number `v` to the date exactly `v` days after
December 30, 1899 (the spreadsheet serial epoch). -/
theorem c6_parse_excel_date (g : String → Option YMD) (d : YMD) (s : String)
    (a b c : List Char) (dd m y : Int) :
    (parseExcelDate g (.date d) = some d) ∧
    (s.toList.contains '/' = true → splitSlash s.toList = [a, b, c] →
      parseIntChars a = some dd → parseIntChars b = some m → parseIntChars c = some y →
      1 ≤ m → m ≤ 12 → 1 ≤ dd → dd ≤ daysInMonth (adjustYear y) m →
      parseExcelDate g (.str s) = some ⟨adjustYear y, m, dd⟩) ∧
    (slashParse s = none → parseExcelDate g (.str s) = g s) ∧
    (∀ v : Int, parseExcelDate g (.num (v : ℚ)) = some (addDays excelEpoch v)) := by
  refine ⟨rfl, ?_, ?_, ?_⟩
  · intro hsl hsp hpa hpb hpc hm1 hm2 hd1 hd2
    simp only [parseExcelDate, slashParse, hsl, if_true, hsp, hpa, hpb, hpc]
    have h12 : (adjustYear y * 12 + (m - 1)) / 12 = adjustYear y := by omega
    have hmod : (adjustYear y * 12 + (m - 1)) % 12 = m - 1 := by omega
    have hm' : m - 1 + 1 = m := by omega
    simp only [jsMkDate, h12, hmod, hm']
    rw [if_pos ⟨hd1, hd2⟩]
  · intro hnone
    simp only [parseExcelDate, hnone]
  · intro v
    simp only [parseExcelDate, Int.floor_intCast]

/-- Witness for C6 on each branch: a native date, the string
`"26/04/2024"`, a slash-free string, and the spreadsheet serial 45000
(March 15, 2023). -/
theorem c6_parse_excel_date_witness :
    parseExcelDate gNone (.date ⟨2024, 4, 10⟩) = some ⟨2024, 4, 10⟩ ∧
    parseExcelDate gNone (.str "26/04/2024") = some ⟨2024, 4, 26⟩ ∧
    parseExcelDate gNone (.str "hello") = none ∧
    parseExcelDate gNone (.num ((45000 : Int) : ℚ)) = some ⟨2023, 3, 15⟩ := by
  refine ⟨?_, ?_, ?_, ?_⟩
  · exact (c6_parse_excel_date gNone ⟨2024, 4, 10⟩ "" [] [] [] 1 1 1).1
  · have h := (c6_parse_excel_date gNone ⟨2024, 4, 10⟩ "26/04/2024"
      "26".toList "04".toList "2024".toList 26 4 2024).2.1 (by decide) (by decide)
      (by decide) (by decide) (by decide) (by decide) (by decide) (by decide) (by decide)
    exact h.trans (by decide)
  · exact ((c6_parse_excel_date gNone ⟨2024, 4, 10⟩ "hello" [] [] [] 1 1 1).2.2.1
      (by decide))
  · have h := (c6_parse_excel_date gNone ⟨2024, 4, 10⟩ "" [] [] [] 1 1 1).2.2.2 45000
    exact h.trans (by decide)

/-- C7: a read that finds a cached aggregate younger than the TTL returns
it unchanged, leaves the cache state untouched and performs zero file
retrievals; after `clearCache`, the next read always runs the full
ingestion pipeline (and installs its result in the cache). -/
theorem c7_cache_behaviour (g : String → Option YMD) (env : PipeEnv) (st : CacheState)
    (now now' : Int) (d : ExcelFolderData) :
    (st.cachedData = some d → now - st.lastCacheTime < CACHE_DURATION →
      readRegistrosFolder g env st now = (d, st, 0)) ∧
    (readRegistrosFolder g env (clearCache st) now' =
      ((processCatalog g env now').1, ⟨some (processCatalog g env now').1, now'⟩,
        (processCatalog g env now').2)) := by
  constructor
  · intro hc hl
    simp only [readRegistrosFolder, hc, if_pos hl]
  · simp only [readRegistrosFolder, clearCache]

/-- Witness for C7: a fresh cache is served with zero fetches, and after
`clearCache` the pipeline issues the 12 existence checks of the catalog. -/
theorem c7_cache_behaviour_witness :
    readRegistrosFolder gNone envNone ⟨some fdEmpty, 0⟩ 1000 = (fdEmpty, ⟨some fdEmpty, 0⟩, 0) ∧
    (readRegistrosFolder gNone envNone (clearCache ⟨some fdEmpty, 0⟩) 7).2.2 = 12 := by
  constructor
  · exact (c7_cache_behaviour gNone envNone ⟨some fdEmpty, 0⟩ 1000 7 fdEmpty).1 rfl (by decide)
  · rw [(c7_cache_behaviour gNone envNone ⟨some fdEmpty, 0⟩ 1000 7 fdEmpty).2]
    decide

/-- C8 counterexample: with no prior cache and a failing ingestion body,
`readRegistrosFolder` does propagate the error, but `getGeneralStats`
returns a normal default-stats object and `getEmployeeData` returns a
normal `null` — their callers see no failure, contradicting the claim
that the failure is propagated to the caller of every public read
operation. -/
theorem c8_counterexample :
    (readFolderE ⟨none, 0⟩ 0 (.error ())).1 = .error () ∧
    (getGeneralStatsE ⟨none, 0⟩ 0 (.error ())).1 = .ok defaultStats ∧
    (getEmployeeDataE "Matheus" ⟨none, 0⟩ 0 (.error ())).1 = .ok none :=
  ⟨rfl, rfl, rfl⟩

/-- C8 (amended): when the ingestion body fails on a cache miss, the
previously cached aggregate (if any) is left intact — the cache state is
unchanged, never replaced by a partial result — and the failure is
propagated to the caller of `readRegistrosFolder`; `getGeneralStats`,
however, swallows it and returns the default stats object, and
`getEmployeeData` swallows it and returns `null`. -/
theorem c8_failure_handling (st : CacheState) (now : Int) (name : String)
    (hmiss : st.cachedData = none ∨ ¬(now - st.lastCacheTime < CACHE_DURATION)) :
    (readFolderE st now (.error ())).1 = .error () ∧
    (readFolderE st now (.error ())).2 = st ∧
    (getGeneralStatsE st now (.error ())).1 = .ok defaultStats ∧
    (getGeneralStatsE st now (.error ())).2 = st ∧
    (getEmployeeDataE name st now (.error ())).1 = .ok none ∧
    (getEmployeeDataE name st now (.error ())).2 = st := by
  have h : readFolderE st now (.error ()) = (.error (), st) := by
    rcases hst : st.cachedData with _ | d
    · simp only [readFolderE, hst]
    · rcases hmiss with h0 | h0
      · rw [hst] at h0
        cases h0
      · simp only [readFolderE, hst, if_neg h0]
  refine ⟨by rw [h], by rw [h], ?_, ?_, ?_, ?_⟩
  · simp only [getGeneralStatsE, h]
  · simp only [getGeneralStatsE, h]
  · simp only [getEmployeeDataE, h]
  · simp only [getEmployeeDataE, h]

/-- Witness for C8 (amended) at an expired cache entry. -/
theorem c8_failure_handling_witness :
    (readFolderE ⟨some fdEmpty, 0⟩ 200000 (.error ())).1 = .error () ∧
    (readFolderE ⟨some fdEmpty, 0⟩ 200000 (.error ())).2 = ⟨some fdEmpty, 0⟩ ∧
    (getGeneralStatsE ⟨some fdEmpty, 0⟩ 200000 (.error ())).1 = .ok defaultStats :=
  have h := c8_failure_handling ⟨some fdEmpty, 0⟩ 200000 "Wesley" (Or.inr (by decide))
  ⟨h.1, h.2.1, h.2.2.1⟩

lemma sumPoints_cons (k : String) (v : Bucket) (t : List (String × Bucket)) :
    sumPoints ((k, v) :: t) = v.points + sumPoints t := by
  simp [sumPoints]

lemma recPoints_append (xs ys : List ExcelEmployeeRecord) :
    recPoints (xs ++ ys) = recPoints xs + recPoints ys := by
  simp [recPoints]

lemma bucketGet_addToBucket_self (m : List (String × Bucket)) (k : String) (b : Bucket) :
    bucketGet (addToBucket m k b) k = bAdd (bucketGet m k) b := by
  induction m with
  | nil => simp [addToBucket, bucketGet, bAdd]
  | cons hd t ih =>
      obtain ⟨k', v⟩ := hd
      by_cases hk : k' = k
      · subst hk
        simp [addToBucket, bucketGet, bAdd]
      · simp [addToBucket, bucketGet, hk, ih]

lemma bucketGet_addToBucket_other (m : List (String × Bucket)) (k k' : String) (b : Bucket)
    (h : k' ≠ k) :
    bucketGet (addToBucket m k b) k' = bucketGet m k' := by
  induction m with
  | nil => simp [addToBucket, bucketGet, Ne.symm h]
  | cons hd t ih =>
      obtain ⟨k0, v⟩ := hd
      by_cases hk : k0 = k
      · subst hk
        simp [addToBucket, bucketGet, Ne.symm h]
      · simp [addToBucket, bucketGet, hk, ih]

lemma bucketGet_of_not_mem (m : List (String × Bucket)) (k : String)
    (h : k ∉ m.map Prod.fst) :
    bucketGet m k = ⟨0, 0⟩ := by
  induction m with
  | nil => rfl
  | cons hd t ih =>
      obtain ⟨k0, v⟩ := hd
      simp only [List.map_cons, List.mem_cons] at h
      push_neg at h
      simp [bucketGet, Ne.symm h.1, ih h.2]

lemma sumPoints_addToBucket (m : List (String × Bucket)) (k : String) (b : Bucket) :
    sumPoints (addToBucket m k b) = sumPoints m + b.points := by
  induction m with
  | nil => simp [addToBucket, sumPoints]
  | cons hd t ih =>
      obtain ⟨k0, v⟩ := hd
      by_cases hk : k0 = k
      · subst hk
        rw [show addToBucket ((k0, v) :: t) k0 b
              = (k0, ⟨v.points + b.points, v.records + b.records⟩) :: t from by
            simp [addToBucket]]
        rw [sumPoints_cons, sumPoints_cons]
        ring
      · rw [show addToBucket ((k0, v) :: t) k b = (k0, v) :: addToBucket t k b from by
            simp [addToBucket, hk]]
        rw [sumPoints_cons, sumPoints_cons, ih]
        ring

lemma sumPoints_mergeBuckets (e a : List (String × Bucket)) :
    sumPoints (mergeBuckets e a) = sumPoints e + sumPoints a := by
  induction a generalizing e with
  | nil => simp [mergeBuckets, sumPoints]
  | cons hd t ih =>
      obtain ⟨k0, b0⟩ := hd
      have h1 : mergeBuckets e ((k0, b0) :: t) = mergeBuckets (addToBucket e k0 b0) t := rfl
      rw [h1, ih, sumPoints_addToBucket, sumPoints_cons]
      ring

lemma bucketGet_mergeBuckets (e a : List (String × Bucket)) (k : String)
    (ha : (a.map Prod.fst).Nodup) :
    bucketGet (mergeBuckets e a) k = bAdd (bucketGet e k) (bucketGet a k) := by
  induction a generalizing e with
  | nil => simp [mergeBuckets, bucketGet, bAdd]
  | cons hd t ih =>
      obtain ⟨k0, b0⟩ := hd
      simp only [List.map_cons, List.nodup_cons] at ha
      have h1 : mergeBuckets e ((k0, b0) :: t) = mergeBuckets (addToBucket e k0 b0) t := rfl
      rw [h1, ih _ ha.2]
      by_cases hk : k0 = k
      · subst hk
        rw [bucketGet_addToBucket_self, bucketGet_of_not_mem t k0 ha.1]
        simp [bucketGet, bAdd]
      · rw [bucketGet_addToBucket_other _ _ _ _ (fun hh => hk hh.symm)]
        simp [bucketGet, hk]

lemma processRows_foldl_name (g : String → Option YMD) (rows : List Row)
    (e : ExcelEmployeeData) :
    (rows.foldl
      (fun e row =>
        match parseExcelRow g row with
        | some r => addRecord e r
        | none => e)
      e).name = e.name := by
  induction rows generalizing e with
  | nil => rfl
  | cons hd t ih =>
      simp only [List.foldl_cons]
      rw [ih]
      cases parseExcelRow g hd <;> rfl

lemma processRows_name (g : String → Option YMD) (n : String) (rows : List Row) :
    (processRows g n rows).name = n :=
  processRows_foldl_name g rows _

lemma EInv_addRecord (e : ExcelEmployeeData) (r : ExcelEmployeeRecord) (he : EInv e) :
    EInv (addRecord e r) := by
  obtain ⟨h1, h2, h3⟩ := he
  refine ⟨?_, ?_, ?_⟩
  · simp only [addRecord]
    rw [recPoints_append, h1]
    simp [recPoints]
  · simp only [addRecord, sumPoints_addToBucket, h2]
  · simp only [addRecord, sumPoints_addToBucket, h3]

lemma EInv_processRows_foldl (g : String → Option YMD) (rows : List Row)
    (e : ExcelEmployeeData) (he : EInv e) :
    EInv (rows.foldl
      (fun e row =>
        match parseExcelRow g row with
        | some r => addRecord e r
        | none => e)
      e) := by
  induction rows generalizing e with
  | nil => exact he
  | cons hd t ih =>
      simp only [List.foldl_cons]
      apply ih
      cases parseExcelRow g hd with
      | some r => exact EInv_addRecord e r he
      | none => exact he

lemma EInv_processRows (g : String → Option YMD) (n : String) (rows : List Row) :
    EInv (processRows g n rows) :=
  EInv_processRows_foldl g rows _ (by simp [EInv, recPoints, sumPoints])

lemma EInv_mergeInto (e a : ExcelEmployeeData) (he : EInv e) (ha : EInv a) :
    EInv (mergeInto e a) := by
  obtain ⟨h1, h2, h3⟩ := he
  obtain ⟨g1, g2, g3⟩ := ha
  refine ⟨?_, ?_, ?_⟩
  · simp only [mergeInto]
    rw [recPoints_append, h1, g1]
  · simp only [mergeInto, sumPoints_mergeBuckets, h2, g2]
  · simp only [mergeInto, sumPoints_mergeBuckets, h3, g3]

lemma EInv_mergeEmployeeData (es : List (String × ExcelEmployeeData))
    (d : ExcelEmployeeData) (hes : ∀ p ∈ es, EInv p.2) (hd : EInv d) :
    ∀ p ∈ mergeEmployeeData es d, EInv p.2 := by
  induction es with
  | nil =>
      intro p hp
      simp only [mergeEmployeeData, List.mem_singleton] at hp
      subst hp
      exact hd
  | cons hd0 t ih =>
      obtain ⟨n, e⟩ := hd0
      intro p hp
      simp only [mergeEmployeeData] at hp
      by_cases hn : n = d.name
      · rw [if_pos hn] at hp
        rcases List.mem_cons.mp hp with h0 | h0
        · subst h0
          exact EInv_mergeInto e d (hes (n, e) (List.mem_cons_self _ _)) hd
        · exact hes _ (List.mem_cons_of_mem _ h0)
      · rw [if_neg hn] at hp
        rcases List.mem_cons.mp hp with h0 | h0
        · subst h0
          exact hes (n, e) (List.mem_cons_self _ _)
        · exact ih (fun q hq => hes q (List.mem_cons_of_mem _ hq)) p h0

lemma EInv_mergeFiles_foldl (g : String → Option YMD) (files : List (String × List Row))
    (acc : List (String × ExcelEmployeeData)) (hacc : ∀ p ∈ acc, EInv p.2) :
    ∀ p ∈ files.foldl (fun acc p => mergeEmployeeData acc (processRows g p.1 p.2)) acc,
      EInv p.2 := by
  induction files generalizing acc with
  | nil => exact hacc
  | cons hd t ih =>
      simp only [List.foldl_cons]
      exact ih _ (EInv_mergeEmployeeData _ _ hacc (EInv_processRows g hd.1 hd.2))

lemma EInv_catalogStep (g : String → Option YMD) (env : PipeEnv)
    (acc : ExcelFolderData × Nat) (p : String × String)
    (hacc : ∀ q ∈ acc.1.employees, EInv q.2) :
    ∀ q ∈ (catalogStep g env acc p).1.employees, EInv q.2 := by
  simp only [catalogStep]
  by_cases hh : env.head ("registros monitorar/" ++ p.1 ++ "/" ++ p.2)
  · rw [if_pos hh]
    cases hb : env.body ("registros monitorar/" ++ p.1 ++ "/" ++ p.2) with
    | some rows =>
        intro q hq
        exact EInv_mergeEmployeeData _ _ hacc (EInv_processRows g _ rows) q hq
    | none => exact hacc
  · rw [if_neg hh]
    exact hacc

lemma EInv_catalogFold (g : String → Option YMD) (env : PipeEnv)
    (files : List (String × String)) (acc : ExcelFolderData × Nat)
    (hacc : ∀ p ∈ acc.1.employees, EInv p.2) :
    ∀ p ∈ (files.foldl (catalogStep g env) acc).1.employees, EInv p.2 := by
  induction files generalizing acc with
  | nil => exact hacc
  | cons hd t ih =>
      simp only [List.foldl_cons]
      exact ih _ (EInv_catalogStep g env acc hd hacc)

/-- C3: every entity aggregate in a folder aggregate built by the
ingestion-and-merge pipeline — whether by merging an arbitrary sequence of
processed files or by the full catalog run — satisfies the invariant:
`totalPoints` equals the sum of its records' points, and the weekly and
monthly buckets each sum back to `totalPoints`; merging never
double-counts a record. -/
theorem c3_aggregate_invariants (g : String → Option YMD) :
    (∀ files : List (String × List Row), ∀ p ∈ mergeFiles g files, EInv p.2) ∧
    (∀ (env : PipeEnv) (now : Int),
      ∀ p ∈ (processCatalog g env now).1.employees, EInv p.2) := by
  constructor
  · intro files
    exact EInv_mergeFiles_foldl g files [] (by simp)
  · intro env now
    have h := EInv_catalogFold g env
      (knownFolders.flatMap (fun folder => (getFilesInFolder folder).map (fun f => (folder, f))))
      (⟨[], ⟨0, 0, 0, 0, 0⟩, now⟩, 0) (by simp)
    intro p hp
    apply h
    simpa [processCatalog, calculateFinalStatistics] using hp

/-- Witness for C3 on the two-row `Ana` file. -/
theorem c3_aggregate_invariants_witness :
    EInv (processRows gNone "Ana" demoRows) := by
  have hmem : ("Ana", processRows gNone "Ana" demoRows) ∈ mergeFiles gNone [("Ana", demoRows)] := by
    simp [mergeFiles, mergeEmployeeData, processRows_name]
  exact (c3_aggregate_invariants gNone).1 [("Ana", demoRows)]
    ("Ana", processRows gNone "Ana" demoRows) hmem

/-- C4: merging the same file-level aggregate twice into an empty folder
aggregate doubles `totalPoints`, `totalRecords` and every per-label bucket
(no implicit deduplication); and in general merging into an existing
entity adds the totals, appends the records in arrival order, and adds the
buckets point-wise per label, with an absent label read as a zero
bucket. -/
theorem c4_merge_doubling_and_addition (A e : ExcelEmployeeData)
    (hm : (A.monthlyData.map Prod.fst).Nodup) (hw : (A.weeklyData.map Prod.fst).Nodup) :
    (mergeEmployeeData [] A = [(A.name, A)] ∧
     mergeEmployeeData (mergeEmployeeData [] A) A = [(A.name, mergeInto A A)] ∧
     (mergeInto A A).totalPoints = 2 * A.totalPoints ∧
     (mergeInto A A).totalRecords = 2 * A.totalRecords ∧
     (∀ k, bucketGet (mergeInto A A).monthlyData k
        = bAdd (bucketGet A.monthlyData k) (bucketGet A.monthlyData k)) ∧
     (∀ k, bucketGet (mergeInto A A).weeklyData k
        = bAdd (bucketGet A.weeklyData k) (bucketGet A.weeklyData k))) ∧
    ((mergeInto e A).totalPoints = e.totalPoints + A.totalPoints ∧
     (mergeInto e A).totalRecords = e.totalRecords + A.totalRecords ∧
     (mergeInto e A).records = e.records ++ A.records ∧
     (∀ k, bucketGet (mergeInto e A).monthlyData k
        = bAdd (bucketGet e.monthlyData k) (bucketGet A.monthlyData k)) ∧
     (∀ k, bucketGet (mergeInto e A).weeklyData k
        = bAdd (bucketGet e.weeklyData k) (bucketGet A.weeklyData k))) := by
  refine ⟨⟨rfl, ?_, ?_, ?_, ?_, ?_⟩, rfl, rfl, rfl, ?_, ?_⟩
  · simp [mergeEmployeeData]
  · simp only [mergeInto]
    ring
  · simp only [mergeInto]
    omega
  · intro k
    exact bucketGet_mergeBuckets A.monthlyData A.monthlyData k hm
  · intro k
    exact bucketGet_mergeBuckets A.weeklyData A.weeklyData k hw
  · intro k
    exact bucketGet_mergeBuckets e.monthlyData A.monthlyData k hm
  · intro k
    exact bucketGet_mergeBuckets e.weeklyData A.weeklyData k hw

/-- Witness for C4: doubling the one-record `Ana` aggregate. -/
theorem c4_merge_doubling_and_addition_witness :
    (mergeInto demoA demoA).totalPoints = 2 * demoA.totalPoints ∧
    bucketGet (mergeInto demoA demoA).monthlyData "Abril"
      = bAdd (bucketGet demoA.monthlyData "Abril") (bucketGet demoA.monthlyData "Abril") ∧
    (mergeInto demoA demoA).records = demoA.records ++ demoA.records :=
  have h := c4_merge_doubling_and_addition demoA demoA (by decide) (by decide)
  ⟨h.1.2.2.1, h.1.2.2.2.2.1 "Abril", h.2.2.2.1⟩

lemma statsFold_split (es : List (String × ExcelEmployeeData)) (bp : String) (b s : ℚ)
    (c : Nat) :
    es.foldl statsStep (bp, b, s, c)
      = ((bestFold es (bp, b)).1, (bestFold es (bp, b)).2,
         (avgFold es (s, c)).1, (avgFold es (s, c)).2) := by
  induction es generalizing bp b s c with
  | nil => rfl
  | cons hd t ih =>
      have hstep : statsStep (bp, b, s, c) hd
          = ((if b < hd.2.totalPoints then (hd.2.name, hd.2.totalPoints) else (bp, b)).1,
             (if b < hd.2.totalPoints then (hd.2.name, hd.2.totalPoints) else (bp, b)).2,
             (if hd.2.name ≠ "Rodrigo" then (s + hd.2.totalPoints, c + 1) else (s, c)).1,
             (if hd.2.name ≠ "Rodrigo" then (s + hd.2.totalPoints, c + 1) else (s, c)).2) := rfl
      simp only [List.foldl_cons, hstep]
      by_cases hb : b < hd.2.totalPoints
      · by_cases hr : hd.2.name ≠ "Rodrigo"
        · simp only [if_pos hb, if_pos hr]
          rw [ih]
          simp only [bestFold, avgFold, List.foldl_cons, if_pos hb, if_pos hr]
        · simp only [if_pos hb, if_neg hr]
          rw [ih]
          simp only [bestFold, avgFold, List.foldl_cons, if_pos hb, if_neg hr]
      · by_cases hr : hd.2.name ≠ "Rodrigo"
        · simp only [if_neg hb, if_pos hr]
          rw [ih]
          simp only [bestFold, avgFold, List.foldl_cons, if_neg hb, if_pos hr]
        · simp only [if_neg hb, if_neg hr]
          rw [ih]
          simp only [bestFold, avgFold, List.foldl_cons, if_neg hb, if_neg hr]

lemma le_maxFrom (b : ℚ) (es : List (String × ExcelEmployeeData)) : b ≤ maxFrom b es := by
  induction es generalizing b with
  | nil => exact le_refl b
  | cons hd t ih =>
      exact le_trans (le_max_left b hd.2.totalPoints) (ih (max b hd.2.totalPoints))

lemma bestFold_snd (es : List (String × ExcelEmployeeData)) (bp : String) (b : ℚ) :
    (bestFold es (bp, b)).2 = maxFrom b es := by
  induction es generalizing bp b with
  | nil => rfl
  | cons hd t ih =>
      show (bestFold t (if b < hd.2.totalPoints then (hd.2.name, hd.2.totalPoints)
        else (bp, b))).2 = maxFrom (max b hd.2.totalPoints) t
      by_cases hb : b < hd.2.totalPoints
      · rw [if_pos hb, ih, max_eq_right hb.le]
      · rw [if_neg hb, ih, max_eq_left (not_lt.mp hb)]

lemma bestFold_fst_of_eq (es : List (String × ExcelEmployeeData)) (bp : String) (b : ℚ)
    (h : (bestFold es (bp, b)).2 = b) :
    (bestFold es (bp, b)).1 = bp := by
  induction es generalizing bp b with
  | nil => rfl
  | cons hd t ih =>
      by_cases hb : b < hd.2.totalPoints
      · exfalso
        have hstep : bestFold (hd :: t) (bp, b)
            = bestFold t (hd.2.name, hd.2.totalPoints) := by
          show bestFold t (if b < hd.2.totalPoints then (hd.2.name, hd.2.totalPoints)
            else (bp, b)) = _
          rw [if_pos hb]
        rw [hstep, bestFold_snd] at h
        have hle := le_maxFrom hd.2.totalPoints t
        rw [h] at hle
        exact absurd hb (not_lt.mpr hle)
      · have hstep : bestFold (hd :: t) (bp, b) = bestFold t (bp, b) := by
          show bestFold t (if b < hd.2.totalPoints then (hd.2.name, hd.2.totalPoints)
            else (bp, b)) = _
          rw [if_neg hb]
        rw [hstep] at h ⊢
        exact ih bp b h

lemma bestFold_firstWithTotal (es : List (String × ExcelEmployeeData)) (bp : String)
    (b : ℚ) (h : b < (bestFold es (bp, b)).2) :
    firstWithTotal es (bestFold es (bp, b)).2 = some (bestFold es (bp, b)).1 := by
  induction es generalizing bp b with
  | nil => exact absurd h (lt_irrefl b)
  | cons hd t ih =>
      by_cases hb : b < hd.2.totalPoints
      · have hstep : bestFold (hd :: t) (bp, b)
            = bestFold t (hd.2.name, hd.2.totalPoints) := by
          show bestFold t (if b < hd.2.totalPoints then (hd.2.name, hd.2.totalPoints)
            else (bp, b)) = _
          rw [if_pos hb]
        rw [hstep] at h ⊢
        by_cases heq : (bestFold t (hd.2.name, hd.2.totalPoints)).2 = hd.2.totalPoints
        · rw [bestFold_fst_of_eq t _ _ heq, heq]
          simp [firstWithTotal]
        · have hle : hd.2.totalPoints ≤ (bestFold t (hd.2.name, hd.2.totalPoints)).2 := by
            rw [bestFold_snd]
            exact le_maxFrom _ _
          have hlt := lt_of_le_of_ne hle (fun hh => heq hh.symm)
          have h2 := ih hd.2.name hd.2.totalPoints hlt
          rw [firstWithTotal] at h2 ⊢
          rw [List.find?_cons_of_neg _ (by simp [ne_of_lt hlt]), h2]
      · have hstep : bestFold (hd :: t) (bp, b) = bestFold t (bp, b) := by
          show bestFold t (if b < hd.2.totalPoints then (hd.2.name, hd.2.totalPoints)
            else (bp, b)) = _
          rw [if_neg hb]
        rw [hstep] at h ⊢
        have h2 := ih bp b h
        have hne : hd.2.totalPoints ≠ (bestFold t (bp, b)).2 := by
          have hle : hd.2.totalPoints ≤ b := not_lt.mp hb
          exact ne_of_lt (lt_of_le_of_lt hle h)
        rw [firstWithTotal] at h2 ⊢
        rw [List.find?_cons_of_neg _ (by simp [hne]), h2]

lemma avgFold_eq (es : List (String × ExcelEmployeeData)) (s : ℚ) (c : Nat) :
    avgFold es (s, c) = (s + sumTeam es, c + countTeam es) := by
  induction es generalizing s c with
  | nil => simp [avgFold, sumTeam, countTeam]
  | cons hd t ih =>
      by_cases hr : hd.2.name ≠ "Rodrigo"
      · have hstep : avgFold (hd :: t) (s, c)
            = avgFold t (s + hd.2.totalPoints, c + 1) := by
          show avgFold t (if hd.2.name ≠ "Rodrigo" then (s + hd.2.totalPoints, c + 1)
            else (s, c)) = _
          rw [if_pos hr]
        have hsum : sumTeam (hd :: t) = hd.2.totalPoints + sumTeam t := by
          simp [sumTeam, List.filter_cons, hr]
        have hcnt : countTeam (hd :: t) = countTeam t + 1 := by
          simp [countTeam, List.filter_cons, hr]
        rw [hstep, ih, hsum, hcnt]
        refine Prod.ext ?_ ?_
        · simp only
          ring
        · simp only
          omega
      · have hstep : avgFold (hd :: t) (s, c) = avgFold t (s, c) := by
          show avgFold t (if hd.2.name ≠ "Rodrigo" then (s + hd.2.totalPoints, c + 1)
            else (s, c)) = _
          rw [if_neg hr]
        have hsum : sumTeam (hd :: t) = sumTeam t := by
          simp [sumTeam, List.filter_cons, hr]
        have hcnt : countTeam (hd :: t) = countTeam t := by
          simp [countTeam, List.filter_cons, hr]
        rw [hstep, ih, hsum, hcnt]

/-- C9 counterexample: for the aggregate with entity totals 100 and 101
the computed team average is `Math.round(100.5) = 101`, not the exact mean
100.5 — the claim's "team average is the mean" fails on non-integer
means. -/
theorem c9_team_average_counterexample :
    ((computeStats demoFolder).avgPerformerTeam : ℚ) ≠ (100 + 101) / 2 := by
  have h1 : sumTeam demoFolder.employees = 201 := by
    simp [sumTeam, demoFolder, demoStatsEmployees]
    norm_num
  have h2 : countTeam demoFolder.employees = 2 := by
    simp [countTeam, demoFolder, demoStatsEmployees]
  have h3 : (computeStats demoFolder).avgPerformerTeam
      = if 0 < countTeam demoFolder.employees
        then jsRound (sumTeam demoFolder.employees / (countTeam demoFolder.employees : ℚ))
        else 0 := by
    have hsplit := statsFold_split demoFolder.employees "" 0 0 0
    have hav := avgFold_eq demoFolder.employees 0 0
    simp only [computeStats, statsFold, hsplit, hav, zero_add]
  rw [h3, h1, h2]
  norm_num [jsRound]

/-- C9 (amended): best points is the maximum entity total (seeded with 0),
and whenever that maximum is positive the best performer is the first
entity in iteration order attaining it (strictly greatest wins, ties keep
the first encountered); when the maximum is 0 the best performer is the
empty name.  The team average is the mean of the totals excluding the
entity named `Rodrigo`, rounded to the nearest integer (`Math.round`).
Goal progress is `totalPoints / 29500 × 100` rounded to one decimal, and
the displayed goal is 29.5 (thousands, one decimal). -/
theorem c9_general_stats (fd : ExcelFolderData) :
    (computeStats fd).bestPoints = maxFrom 0 fd.employees ∧
    (0 < maxFrom 0 fd.employees →
      firstWithTotal fd.employees (maxFrom 0 fd.employees)
        = some (computeStats fd).bestPerformer) ∧
    (maxFrom 0 fd.employees = 0 → (computeStats fd).bestPerformer = "") ∧
    (computeStats fd).avgPerformerTeam
      = (if 0 < countTeam fd.employees
         then jsRound (sumTeam fd.employees / (countTeam fd.employees : ℚ)) else 0) ∧
    (computeStats fd).progressPercentage
      = (jsRound (fd.statistics.totalPoints / totalGoal * 100 * 10) : ℚ) / 10 ∧
    (computeStats fd).totalGoal = 59 / 2 := by
  have hsplit := statsFold_split fd.employees "" 0 0 0
  have hb2 : (computeStats fd).bestPoints = (bestFold fd.employees ("", 0)).2 := by
    simp only [computeStats, statsFold, hsplit]
  have hb1 : (computeStats fd).bestPerformer = (bestFold fd.employees ("", 0)).1 := by
    simp only [computeStats, statsFold, hsplit]
  have havg : (computeStats fd).avgPerformerTeam
      = (if 0 < (avgFold fd.employees (0, 0)).2
         then jsRound ((avgFold fd.employees (0, 0)).1 / ((avgFold fd.employees (0, 0)).2 : ℚ))
         else 0) := by
    simp only [computeStats, statsFold, hsplit]
  refine ⟨?_, ?_, ?_, ?_, rfl, ?_⟩
  · rw [hb2, bestFold_snd]
  · intro h
    rw [hb1, ← bestFold_snd fd.employees "" 0]
    exact bestFold_firstWithTotal fd.employees "" 0 (by rw [bestFold_snd]; exact h)
  · intro h
    rw [hb1]
    exact bestFold_fst_of_eq fd.employees "" 0 (by rw [bestFold_snd, h])
  · rw [havg, avgFold_eq]
    simp only [zero_add]
  · simp only [computeStats]
    norm_num [jsRound, totalGoal]

/-- Witness for C9 (amended) on the totals-100-and-101 aggregate: the
rounded average is 101, the best points 101, the best performer the entity
`B`, and the displayed goal 29.5. -/
theorem c9_general_stats_witness :
    (computeStats demoFolder).avgPerformerTeam = 101 ∧
    (computeStats demoFolder).bestPoints = 101 ∧
    (computeStats demoFolder).bestPerformer = "B" ∧
    (computeStats demoFolder).totalGoal = 59 / 2 := by
  have h := c9_general_stats demoFolder
  have h1 : sumTeam demoFolder.employees = 201 := by
    simp [sumTeam, demoFolder, demoStatsEmployees]
    norm_num
  have h2 : countTeam demoFolder.employees = 2 := by
    simp [countTeam, demoFolder, demoStatsEmployees]
  have hmax : maxFrom 0 demoFolder.employees = 101 := by
    simp [maxFrom, demoFolder, demoStatsEmployees, max_def]
    norm_num
  refine ⟨?_, ?_, ?_, h.2.2.2.2.2⟩
  · rw [h.2.2.2.1, h1, h2]
    norm_num [jsRound]
  · rw [h.1, hmax]
  · have hpos : (0 : ℚ) < maxFrom 0 demoFolder.employees := by
      rw [hmax]
      norm_num
    have h2b := h.2.1 hpos
    rw [hmax] at h2b
    have h3 : firstWithTotal demoFolder.employees 101 = some "B" := by
      simp [firstWithTotal, demoFolder, demoStatsEmployees]
    rw [h3] at h2b
    exact (Option.some.inj h2b).symm

end ElegBiz
